import Mathlib

/-!
Shallow embedding of the remote action-cache middleware in
`src/rust/engine/process_execution/src/remote_cache.rs`.

Pure data and control flow of the Rust file are translated into Lean
definitions; the external collaborators (the object store, the REAPI RPC
client, the downstream runner, the async race) are modelled as explicit
inputs.  Digests are natural numbers.
-/

namespace RemoteCache

/-- Content digest (`hashing::Digest`), modelled as a natural number. -/
abbrev Digest := Nat

/-- Modelled from the spec: `DirectoryTrie` (`fs::DigestTrie`, not under
`src/`) — a merkle directory tree whose entry lookup by relative path
returns one of File(digest, is_executable), Symlink(target), or
Directory(subtrie), and which supports a recursive walk yielding leaf
digests. -/
inductive TrieEntry where
  | file (name : String) (digest : Digest) (is_executable : Bool)
  | symlink (name : String) (target : String)
  | dir (name : String) (children : List TrieEntry)

/-- The name of a trie entry. -/
def TrieEntry.name : TrieEntry → String
  | .file n _ _ => n
  | .symlink n _ => n
  | .dir n _ => n

/-- A directory trie is the list of entries of the root directory. -/
abbrev DigestTrie := List TrieEntry

/-- Find the child of a directory with the given name. -/
def findChild : List TrieEntry → String → Option TrieEntry
  | [], _ => none
  | e :: rest, n => if e.name = n then some e else findChild rest n

/-- Modelled from the spec: entry lookup by relative path
(`DigestTrie::entry`, not under `src/`).  Navigates the components of the
relative path; a missing or non-directory intermediate component makes
the path absent. -/
def entryAt : List TrieEntry → List String → Option TrieEntry
  | _, [] => none
  | tr, [n] => findChild tr n
  | tr, n :: rest =>
    match findChild tr n with
    | some (TrieEntry.dir _ cs) => entryAt cs rest
    | _ => none

mutual
/-- Modelled from the spec: the recursive walk of a subtree collecting the
File leaf digests (`DigestTrie::walk` with `SymlinkBehavior::Aware`, as
used at `remote_cache.rs:158-162`).  One entry contributes: a File its
digest, a Symlink nothing, a Directory its children's walk. -/
def entryFileDigests : TrieEntry → List Digest
  | TrieEntry.file _ d _ => [d]
  | TrieEntry.symlink _ _ => []
  | TrieEntry.dir _ cs => listFileDigests cs
/-- The File leaf digests of a list of entries, in walk order. -/
def listFileDigests : List TrieEntry → List Digest
  | [] => []
  | e :: rest => entryFileDigests e ++ listFileDigests rest
end

/-- A bounded mixing step, used by the content-addressing model. -/
def mix (a b : Nat) : Nat := (a * 1000003 + b + 1) % 1000000007

/-- A simple deterministic string code, used by the content-addressing
model. -/
def strCode (s : String) : Nat :=
  s.data.foldl (fun h c => mix h c.toNat) 7

mutual
/-- Content code of a single trie entry (model of content addressing). -/
def entryCode : TrieEntry → Nat
  | .file n d e => mix 1 (mix (strCode n) (mix d (if e then 1 else 0)))
  | .symlink n t => mix 2 (mix (strCode n) (strCode t))
  | .dir n cs => mix 3 (mix (strCode n) (listCode cs))
/-- Content code of a list of trie entries. -/
def listCode : List TrieEntry → Nat
  | [] => 0
  | e :: rest => mix (entryCode e) (listCode rest)
end

/-- Modelled from the spec: `DigestTrie::compute_root_digest` (not under
`src/`) — the content digest of a directory trie. -/
def compute_root_digest (tr : List TrieEntry) : Digest := listCode tr

/-- A REAPI `Tree` proto (`FlattenedTree`): the wire form of a directory.
Modelled as the subtree it flattens (`sub_trie.into()` at
`remote_cache.rs:156`). -/
abbrev Tree := List TrieEntry

/-- Modelled from the spec: `store_proto_locally` (in `crate::remote`, not
under `src/`) persists a proto and returns its content digest. -/
def store_proto_locally (t : Tree) : Digest := compute_root_digest t

/-- Modelled from the spec: `fs::RelativePath` (not under `src/`) — a
validated relative path, held as its components. -/
abbrev RelativePath := List String

/-- Split a character list on the path separator. -/
def splitSlash : List Char → List (List Char)
  | [] => [[]]
  | c :: rest =>
    if c = '/' then [] :: splitSlash rest
    else
      match splitSlash rest with
      | [] => [[c]]
      | g :: gs => (c :: g) :: gs

/-- Modelled from the spec: `RelativePath::new` (not under `src/`).  The
spec's data model requires declared output paths to be relative paths, so
construction fails on an absolute path or on a `..` component; otherwise
the path is split into its non-empty components. -/
def RelativePath.new (s : String) : Except String RelativePath :=
  match s.data with
  | '/' :: _ => Except.error ("Received an absolute path: " ++ s)
  | cs =>
    let comps := ((splitSlash cs).filter (fun c => c ≠ [])).map
      (fun c => String.mk c)
    if comps.contains ".." then
      Except.error ("Received a path which traverses outside: " ++ s)
    else
      Except.ok comps

/-- Render a relative path for error messages. -/
def RelativePath.render (p : RelativePath) : String :=
  String.intercalate "/" p

/-- `CommandRunner::make_tree_for_output_directory`
(`remote_cache.rs:133-165`): look up the declared output-directory path in
the output trie.  Absent paths give `Ok none`; a symlink or file at the
path is an error naming the path and the root digest; a directory gives
the flattened tree plus the File leaf digests of its walk. -/
def make_tree_for_output_directory (root_trie : DigestTrie)
    (directory_path : RelativePath) :
    Except String (Option (Tree × List Digest)) :=
  match entryAt root_trie directory_path with
  | none => Except.ok none
  | some (TrieEntry.symlink _ _) =>
    Except.error ("Declared output directory path " ++ directory_path.render
      ++ " in output digest " ++ toString (compute_root_digest root_trie)
      ++ " contained a symlink instead.")
  | some (TrieEntry.file _ _ _) =>
    Except.error ("Declared output directory path " ++ directory_path.render
      ++ " in output digest " ++ toString (compute_root_digest root_trie)
      ++ " contained a file instead.")
  | some (TrieEntry.dir _ cs) =>
    Except.ok (some (cs, listFileDigests cs))

/-- A REAPI `OutputFile` proto, the fields populated by the source. -/
structure OutputFile where
  digest : Option Digest
  path : String
  is_executable : Bool
deriving Repr, DecidableEq

/-- `CommandRunner::extract_output_file` (`remote_cache.rs:167-193`): look
up the declared output-file path in the output trie.  An invalid relative
path propagates as an error; an absent path gives `Ok none`; a symlink or
directory at the path is an error naming the path and the root digest; a
file gives the `OutputFile` proto. -/
def extract_output_file (root_trie : DigestTrie) (file_path : String) :
    Except String (Option OutputFile) :=
  match RelativePath.new file_path with
  | Except.error e => Except.error e
  | Except.ok rp =>
    match entryAt root_trie rp with
    | none => Except.ok none
    | some (TrieEntry.file _ d e) =>
      Except.ok (some { digest := some d, path := file_path, is_executable := e })
    | some (TrieEntry.symlink _ _) =>
      Except.error ("Declared output file path " ++ file_path
        ++ " in output digest " ++ toString (compute_root_digest root_trie)
        ++ " contained a symlink instead.")
    | some (TrieEntry.dir _ _) =>
      Except.error ("Declared output file path " ++ file_path
        ++ " in output digest " ++ toString (compute_root_digest root_trie)
        ++ " contained a directory instead.")

/-- The fields of the REAPI `Command` proto the source reads: the declared
output-file paths and output-directory paths, in declared order. -/
structure Command where
  output_files : List String := []
  output_directories : List String := []

/-- The fields of `FallibleProcessResultWithPlatform` the source reads. -/
structure FallibleResult where
  exit_code : Int
  stdout_digest : Digest
  stderr_digest : Digest
  output_directory : Digest
  metadata : Nat
deriving Repr, DecidableEq

/-- A REAPI `OutputDirectory` proto, the fields populated by the source. -/
structure OutputDirectory where
  path : String
  tree_digest : Option Digest
  is_topologically_sorted : Bool
deriving Repr, DecidableEq

/-- A REAPI `ActionResult` proto, the fields populated by the source. -/
structure ActionResult where
  exit_code : Int
  stdout_digest : Option Digest
  stderr_digest : Option Digest
  execution_metadata : Option Nat
  output_files : List OutputFile := []
  output_directories : List OutputDirectory := []
deriving Repr, DecidableEq

/-- Result of a Rust computation that may panic (`unwrap` on an error). -/
inductive PanicOr (α : Type) where
  | panicked (msg : String)
  | value (v : α)

/-- `HashSet::insert` modelled on a duplicate-free list: insertion is a
no-op when the digest is already present. -/
def insertD (ds : List Digest) (d : Digest) : List Digest :=
  if d ∈ ds then ds else ds ++ [d]

/-- `HashSet::extend` modelled as repeated insertion. -/
def insertAll (ds : List Digest) (new : List Digest) : List Digest :=
  new.foldl insertD ds

/-- `protos::require_digest`: extract a digest that must be present. -/
def require_digest : Option Digest → Except String Digest
  | none => Except.error "Protocol violation: expected Digest but none present"
  | some d => Except.ok d

/-- The loop over `command.output_directories` in `make_action_result`
(`remote_cache.rs:225-245`).  Each declared path is converted with
`RelativePath::new(...).unwrap()` — an invalid path panics.  An absent
path is skipped; a present directory stores its flattened tree, inserts
the tree digest and extends with the walk's file digests, and appends an
`OutputDirectory` entry. -/
def processDirs (output_trie : DigestTrie) :
    List String → ActionResult → List Digest →
    PanicOr (Except String (ActionResult × List Digest))
  | [], ar, ds => PanicOr.value (Except.ok (ar, ds))
  | p :: ps, ar, ds =>
    match RelativePath.new p with
    | Except.error e => PanicOr.panicked e
    | Except.ok rp =>
      match make_tree_for_output_directory output_trie rp with
      | Except.error e => PanicOr.value (Except.error e)
      | Except.ok none => processDirs output_trie ps ar ds
      | Except.ok (some (tree, file_digests)) =>
        let tree_digest := store_proto_locally tree
        let ds := insertAll (insertD ds tree_digest) file_digests
        let ar := { ar with output_directories := ar.output_directories ++
          [{ path := p, tree_digest := some tree_digest,
             is_topologically_sorted := false }] }
        processDirs output_trie ps ar ds

/-- The loop over `command.output_files` in `make_action_result`
(`remote_cache.rs:247-255`).  An absent path is skipped; a present file
has its digest inserted and its `OutputFile` appended; an invalid path or
a wrong-kind entry is an error value. -/
def processFiles (output_trie : DigestTrie) :
    List String → ActionResult → List Digest →
    Except String (ActionResult × List Digest)
  | [], ar, ds => Except.ok (ar, ds)
  | p :: ps, ar, ds =>
    match extract_output_file output_trie p with
    | Except.error e => Except.error e
    | Except.ok none => processFiles output_trie ps ar ds
    | Except.ok (some output_file) =>
      match require_digest output_file.digest with
      | Except.error e => Except.error e
      | Except.ok d =>
        processFiles output_trie ps
          { ar with output_files := ar.output_files ++ [output_file] }
          (insertD ds d)

/-- `CommandRunner::make_action_result` (`remote_cache.rs:201-258`).  The
store is modelled as a lookup from the result's output-directory digest to
its trie (`Store::load_digest_trie`; a failed load is a store error).  The
closure is seeded with the stdout and stderr digests, then the declared
output directories and output files are processed in declared order. -/
def make_action_result (load_digest_trie : Digest → Option DigestTrie)
    (command : Command) (result : FallibleResult) :
    PanicOr (Except String (ActionResult × List Digest)) :=
  match load_digest_trie result.output_directory with
  | none => PanicOr.value (Except.error "StoreError: missing digest trie")
  | some output_trie =>
    let digests := insertD (insertD [] result.stdout_digest) result.stderr_digest
    let action_result : ActionResult :=
      { exit_code := result.exit_code,
        stdout_digest := some result.stdout_digest,
        stderr_digest := some result.stderr_digest,
        execution_metadata := some result.metadata }
    match processDirs output_trie command.output_directories action_result digests with
    | PanicOr.panicked e => PanicOr.panicked e
    | PanicOr.value (Except.error e) => PanicOr.value (Except.error e)
    | PanicOr.value (Except.ok (ar, ds)) =>
      PanicOr.value (processFiles output_trie command.output_files ar ds)

/-- `RemoteCacheWarningsBehavior` (`remote_cache.rs:35-41`). -/
inductive RemoteCacheWarningsBehavior where
  | Ignore
  | FirstOnly
  | Backoff
deriving Repr, DecidableEq

/-- `CacheErrorType` (`remote_cache.rs:471-474`). -/
inductive CacheErrorType where
  | ReadError
  | WriteError
deriving Repr, DecidableEq

/-- Modelled from the spec: the per-request `CacheScope` policy
(`ProcessCacheScope`, not under `src/`): `Always` caches successes and
failures, `Successful` only zero exits, `Never` nothing. -/
inductive ProcessCacheScope where
  | Always
  | Successful
  | Never
deriving Repr, DecidableEq

/-- Fuel-based helper for the binary population count; the fuel only
bounds the recursion depth. -/
def count_ones_aux : Nat → Nat → Nat
  | _, 0 => 0
  | 0, _ => 0
  | fuel + 1, n + 1 => (n + 1) % 2 + count_ones_aux fuel ((n + 1) / 2)

/-- Binary population count, the model of Rust `usize::count_ones`. -/
def count_ones (n : Nat) : Nat := count_ones_aux n n

/-- Rust `usize::is_power_of_two`: exactly one set bit. -/
def is_power_of_two (n : Nat) : Bool := count_ones n == 1

/-- The two log levels `log_cache_error` emits at. -/
inductive LogLevel where
  | Warn
  | Debug
deriving Repr, DecidableEq

/-- One emitted log message. -/
structure LogEvent where
  level : LogLevel
  msg : String
deriving Repr, DecidableEq

/-- A gRPC status code; only `NotFound` is treated specially by the
source, all other non-success codes behave alike. -/
inductive Code where
  | NotFound
  | Unavailable
  | Other
deriving Repr, DecidableEq

/-- A gRPC `Status`: a code plus a message. -/
structure Status where
  code : Code
  msg : String
deriving Repr, DecidableEq

/-- `Status::unavailable`. -/
def Status.unavailable (m : String) : Status := { code := Code.Unavailable, msg := m }

/-- `Status::not_found`. -/
def Status.not_found (m : String) : Status := { code := Code.NotFound, msg := m }

/-- `grpc_util::status_to_str`, modelled as extracting the message. -/
def status_to_str (s : Status) : String := s.msg

/-- Errors surfaced by `run`, modelled as their rendered text. -/
abbrev ProcessError := String

/-- The workunit counters the embedded code paths touch, plus the count
of `GetActionResult` RPCs issued. -/
structure Counters where
  remoteCacheRequests : Nat := 0
  remoteCacheRequestsCached : Nat := 0
  remoteCacheRequestsUncached : Nat := 0
  remoteCacheReadErrors : Nat := 0
  remoteCacheSpeculationRemoteCompletedFirst : Nat := 0
  remoteCacheSpeculationLocalCompletedFirst : Nat := 0
  getActionResultCalls : Nat := 0
deriving Repr, DecidableEq

/-- The mutable state of the runner the embedded code paths touch: the
counters, the two error-occurrence maps (`BTreeMap<String, usize>`
modelled as total maps with default 0, matching `entry(..).or_insert(0)`),
the emitted log, and the names of the detached tasks spawned on
`context.tail_tasks`. -/
structure RState where
  counters : Counters := {}
  read_errors_counter : String → Nat := fun _ => 0
  write_errors_counter : String → Nat := fun _ => 0
  log : List LogEvent := []
  tail_tasks : List String := []

/-- The occurrence count for an error text in the map for a direction. -/
def errCount (st : RState) (err_type : CacheErrorType) (err : String) : Nat :=
  match err_type with
  | CacheErrorType.ReadError => st.read_errors_counter err
  | CacheErrorType.WriteError => st.write_errors_counter err

/-- `CommandRunner::log_cache_error` (`remote_cache.rs:434-460`):
increment the per-direction counter for this exact error text, build the
message from the direction, the cumulative count and the error, and emit
at Warn when the behaviour elevates this occurrence, else at Debug. -/
def log_cache_error (behavior : RemoteCacheWarningsBehavior) (st : RState)
    (err : String) (err_type : CacheErrorType) : RState :=
  let err_count := errCount st err_type err + 1
  let st :=
    match err_type with
    | CacheErrorType.ReadError =>
      { st with read_errors_counter :=
          fun e => if e = err then err_count else st.read_errors_counter e }
    | CacheErrorType.WriteError =>
      { st with write_errors_counter :=
          fun e => if e = err then err_count else st.write_errors_counter e }
  let failure_desc :=
    match err_type with
    | CacheErrorType.ReadError => "read from"
    | CacheErrorType.WriteError => "write to"
  let log_msg := "Failed to " ++ failure_desc ++ " remote cache ("
    ++ toString err_count ++ " occurrences so far): " ++ err
  let log_at_warn :=
    match behavior with
    | RemoteCacheWarningsBehavior.Ignore => false
    | RemoteCacheWarningsBehavior.FirstOnly => err_count == 1
    | RemoteCacheWarningsBehavior.Backoff => is_power_of_two err_count
  { st with log := st.log ++
      [{ level := if log_at_warn then LogLevel.Warn else LogLevel.Debug,
         msg := log_msg }] }

/-- The outcomes of the external steps inside `check_action_cache`: the
`GetActionResult` RPC after retries, the reification of the returned
manifest (`populate_fallible_execution_result`), and the content
validation (`check_cache_content`). -/
structure CacheReadEnv where
  rpc_result : Except Status ActionResult
  reified : Except String FallibleResult
  content_valid : Except String Bool

/-- `check_action_cache` (`remote_cache.rs:575-659`): bump
`RemoteCacheRequests`, issue `GetActionResult`, then chain reification and
content validation; an invalid content check becomes `NotFound`.  A
`NotFound` status yields `Ok none` with `RemoteCacheRequestsUncached`
bumped; any other failure bumps `RemoteCacheReadErrors` and is returned
as an error; success bumps `RemoteCacheRequestsCached`. -/
def check_action_cache (env : CacheReadEnv) (c : Counters) :
    Counters × Except ProcessError (Option FallibleResult) :=
  let c := { c with remoteCacheRequests := c.remoteCacheRequests + 1,
                    getActionResultCalls := c.getActionResultCalls + 1 }
  let response : Except Status FallibleResult :=
    match env.rpc_result with
    | Except.error s => Except.error s
    | Except.ok _action_result =>
      match env.reified with
      | Except.error e =>
        Except.error (Status.unavailable ("Output roots could not be loaded: " ++ e))
      | Except.ok resp =>
        match env.content_valid with
        | Except.error e =>
          Except.error (Status.unavailable ("Output content could not be validated: " ++ e))
        | Except.ok true => Except.ok resp
        | Except.ok false => Except.error (Status.not_found "")
  match response with
  | Except.ok resp =>
    ({ c with remoteCacheRequestsCached := c.remoteCacheRequestsCached + 1 },
     Except.ok (some resp))
  | Except.error status =>
    match status.code with
    | Code.NotFound =>
      ({ c with remoteCacheRequestsUncached := c.remoteCacheRequestsUncached + 1 },
       Except.ok none)
    | _ =>
      ({ c with remoteCacheReadErrors := c.remoteCacheReadErrors + 1 },
       Except.error (status_to_str status))

/-- The cache-read future built in `speculate_read_action_cache`
(`remote_cache.rs:279-317`): run `check_action_cache`; keep a manifest
only when its exit code is zero or failures are cached, else downgrade to
a miss; coerce an error to a miss after logging it via the adaptive error
logger. -/
def cache_read_future (behavior : RemoteCacheWarningsBehavior)
    (env : CacheReadEnv) (failures_cached : Bool) (st : RState) :
    RState × Option FallibleResult :=
  let (c, response) := check_action_cache env st.counters
  let st := { st with counters := c }
  match response with
  | Except.ok (some cached_response) =>
    if cached_response.exit_code == 0 || failures_cached then
      (st, some cached_response)
    else
      (st, none)
  | Except.ok none => (st, none)
  | Except.error err =>
    (log_cache_error behavior st err CacheErrorType.ReadError, none)

/-- `handle_cache_read_completed` (`remote_cache.rs:344-382`): on a hit
bump `RemoteCacheSpeculationRemoteCompletedFirst` and return the cached
response with `hit = true`; on a miss await the local execution and
return it with `hit = false` (no counter is bumped there). -/
def handle_cache_read_completed (st : RState)
    (cache_result : Option FallibleResult)
    (local_result : Except ProcessError FallibleResult) :
    RState × Except ProcessError (FallibleResult × Bool) :=
  match cache_result with
  | some cached_response =>
    ({ st with counters := { st.counters with
        remoteCacheSpeculationRemoteCompletedFirst :=
          st.counters.remoteCacheSpeculationRemoteCompletedFirst + 1 } },
     Except.ok (cached_response, true))
  | none =>
    (st, local_result.map (fun res => (res, false)))

/-- Which arm of the `tokio::select!` race in
`speculate_read_action_cache` completes first: the cache read before the
speculation delay, the cache read after the delay, or the local execution
after the delay. -/
inductive RaceWinner where
  | cacheFirst
  | cacheAfterDelay
  | localAfterDelay
deriving Repr, DecidableEq

/-- `speculate_read_action_cache` (`remote_cache.rs:266-342`): race the
cache read against local execution.  Both cache arms hand the cache
result to `handle_cache_read_completed`; the local arm bumps
`RemoteCacheSpeculationLocalCompletedFirst` and returns the local result
with `hit = false`. -/
def speculate_read_action_cache (behavior : RemoteCacheWarningsBehavior)
    (env : CacheReadEnv) (failures_cached : Bool)
    (local_result : Except ProcessError FallibleResult)
    (winner : RaceWinner) (st : RState) :
    RState × Except ProcessError (FallibleResult × Bool) :=
  match winner with
  | RaceWinner.cacheFirst =>
    let (st, cache_result) := cache_read_future behavior env failures_cached st
    handle_cache_read_completed st cache_result local_result
  | RaceWinner.cacheAfterDelay =>
    let (st, cache_result) := cache_read_future behavior env failures_cached st
    handle_cache_read_completed st cache_result local_result
  | RaceWinner.localAfterDelay =>
    ({ st with counters := { st.counters with
        remoteCacheSpeculationLocalCompletedFirst :=
          st.counters.remoteCacheSpeculationLocalCompletedFirst + 1 } },
     local_result.map (fun res => (res, false)))

/-- Construction-time configuration of the runner read by `run`. -/
structure Config where
  cache_read : Bool
  cache_write : Bool
  warnings_behavior : RemoteCacheWarningsBehavior

/-- The fields of the `Process` request `run` reads. -/
structure Process where
  cache_scope : ProcessCacheScope

/-- The external outcomes a single call to `run` consumes: the action and
command digests from `ensure_action_stored_locally`, the cache-read
environment, the downstream runner's result, and the race winner. -/
structure RunEnv where
  action_digest : Digest
  command_digest : Digest
  cache : CacheReadEnv
  local_result : Except ProcessError FallibleResult
  winner : RaceWinner

/-- The `(result, hit_cache)` step of `CommandRunner::run`
(`remote_cache.rs:508-524`): speculate when reads are enabled and the
scope permits, else await the downstream runner with `hit = false`. -/
def run_speculation_step (cfg : Config) (request : Process) (env : RunEnv)
    (st : RState) : RState × Except ProcessError (FallibleResult × Bool) :=
  let failures_cached := request.cache_scope == ProcessCacheScope.Always
  let use_remote_cache := request.cache_scope == ProcessCacheScope.Always
    || request.cache_scope == ProcessCacheScope.Successful
  if cfg.cache_read && use_remote_cache then
    speculate_read_action_cache cfg.warnings_behavior env.cache
      failures_cached env.local_result env.winner st
  else
    (st, env.local_result.map (fun res => (res, false)))

/-- `CommandRunner::run` (`remote_cache.rs:478-561`): compute
`failures_cached` and `use_remote_cache` from the scope; run the
speculation step; then, when the result did not come from the cache, is
cacheable and writes are enabled, spawn the detached write-back task
named by the action digest and return without awaiting it. -/
def run (cfg : Config) (request : Process) (env : RunEnv) (st : RState) :
    RState × Except ProcessError FallibleResult :=
  let failures_cached := request.cache_scope == ProcessCacheScope.Always
  let use_remote_cache := request.cache_scope == ProcessCacheScope.Always
    || request.cache_scope == ProcessCacheScope.Successful
  match run_speculation_step cfg request env st with
  | (st, Except.error e) => (st, Except.error e)
  | (st, Except.ok (result, hit_cache)) =>
    if !hit_cache && (result.exit_code == 0 || failures_cached)
        && cfg.cache_write && use_remote_cache then
      ({ st with tail_tasks := st.tail_tasks ++
          ["remote cache write " ++ toString env.action_digest] },
       Except.ok result)
    else
      (st, Except.ok result)

/-- The `OutputDirectory` entries `make_action_result` produces for a list
of declared output-directory paths, in declared order: one entry per path
that is present in the trie as a directory. -/
def dirOutputsOf (output_trie : DigestTrie) (ps : List String) :
    List OutputDirectory :=
  ps.filterMap (fun p =>
    match RelativePath.new p with
    | Except.error _ => none
    | Except.ok rp =>
      match make_tree_for_output_directory output_trie rp with
      | Except.ok (some (tree, _)) =>
        some { path := p, tree_digest := some (store_proto_locally tree),
               is_topologically_sorted := false }
      | _ => none)

/-- The digests the output-directory loop of `make_action_result`
contributes: for each declared path present as a directory, the stored
flattened tree's digest followed by the File leaf digests of its walk. -/
def dirClosureOf (output_trie : DigestTrie) (ps : List String) :
    List Digest :=
  (ps.map (fun p =>
    match RelativePath.new p with
    | Except.error _ => []
    | Except.ok rp =>
      match make_tree_for_output_directory output_trie rp with
      | Except.ok (some (tree, file_digests)) =>
        store_proto_locally tree :: file_digests
      | _ => [])).flatten

/-- The `OutputFile` entries `make_action_result` produces for a list of
declared output-file paths, in declared order: one entry per path present
in the trie as a file. -/
def fileOutputsOf (output_trie : DigestTrie) (ps : List String) :
    List OutputFile :=
  ps.filterMap (fun p =>
    match extract_output_file output_trie p with
    | Except.ok (some output_file) => some output_file
    | _ => none)

/-- The digests the output-file loop of `make_action_result` contributes:
the digest of each declared path present in the trie as a file. -/
def fileClosureOf (output_trie : DigestTrie) (ps : List String) :
    List Digest :=
  (ps.map (fun p =>
    match extract_output_file output_trie p with
    | Except.ok (some output_file) =>
      match output_file.digest with
      | some d => [d]
      | none => []
    | _ => [])).flatten

/-! ## Helper lemmas -/

theorem except_map_eq_error {α β : Type} (f : α → β) (x : Except String α)
    (e : String) : x.map f = Except.error e ↔ x = Except.error e := by
  cases x <;> simp [Except.map]

theorem except_map_eq_ok {α β : Type} (f : α → β) (x : Except String α)
    (b : β) : x.map f = Except.ok b ↔ ∃ a, x = Except.ok a ∧ f a = b := by
  cases x <;> simp [Except.map]

theorem append_singleton_ne {α : Type} (l : List α) (x : α) : l ++ [x] ≠ l := by
  intro h
  have hlen := congrArg List.length h
  simp at hlen

/-- A concrete result used by several concrete instances below. -/
def result0 : FallibleResult :=
  { exit_code := 0, stdout_digest := 1, stderr_digest := 2,
    output_directory := 9, metadata := 0 }

/-! ## Claims -/

/-- C5: during manifest construction, a declared output-directory path
present in the output trie as a symlink or file, and a declared
output-file path present as a symlink or directory, each produce an error
naming the offending path and the root digest; a declared path absent
from the trie is skipped by the corresponding loop, producing no error
and no manifest entry. -/
theorem C5_declared_output_wrong_kind (root_trie : DigestTrie)
    (dp : RelativePath) (fp : String) (rp : RelativePath) :
    (entryAt root_trie dp = none →
      make_tree_for_output_directory root_trie dp = Except.ok none)
    ∧ (∀ n t, entryAt root_trie dp = some (TrieEntry.symlink n t) →
      make_tree_for_output_directory root_trie dp = Except.error
        ("Declared output directory path " ++ dp.render ++ " in output digest "
          ++ toString (compute_root_digest root_trie)
          ++ " contained a symlink instead."))
    ∧ (∀ n d e, entryAt root_trie dp = some (TrieEntry.file n d e) →
      make_tree_for_output_directory root_trie dp = Except.error
        ("Declared output directory path " ++ dp.render ++ " in output digest "
          ++ toString (compute_root_digest root_trie)
          ++ " contained a file instead."))
    ∧ (RelativePath.new fp = Except.ok rp → entryAt root_trie rp = none →
      extract_output_file root_trie fp = Except.ok none)
    ∧ (∀ n t, RelativePath.new fp = Except.ok rp →
      entryAt root_trie rp = some (TrieEntry.symlink n t) →
      extract_output_file root_trie fp = Except.error
        ("Declared output file path " ++ fp ++ " in output digest "
          ++ toString (compute_root_digest root_trie)
          ++ " contained a symlink instead."))
    ∧ (∀ n cs, RelativePath.new fp = Except.ok rp →
      entryAt root_trie rp = some (TrieEntry.dir n cs) →
      extract_output_file root_trie fp = Except.error
        ("Declared output file path " ++ fp ++ " in output digest "
          ++ toString (compute_root_digest root_trie)
          ++ " contained a directory instead."))
    ∧ (∀ ps ar ds, RelativePath.new fp = Except.ok rp →
      entryAt root_trie rp = none →
      processDirs root_trie (fp :: ps) ar ds = processDirs root_trie ps ar ds)
    ∧ (∀ ps ar ds, extract_output_file root_trie fp = Except.ok none →
      processFiles root_trie (fp :: ps) ar ds = processFiles root_trie ps ar ds) := by
  refine ⟨?_, ?_, ?_, ?_, ?_, ?_, ?_, ?_⟩
  · intro h; simp [make_tree_for_output_directory, h]
  · intro n t h; simp [make_tree_for_output_directory, h]
  · intro n d e h; simp [make_tree_for_output_directory, h]
  · intro h1 h2; simp [extract_output_file, h1, h2]
  · intro n t h1 h2; simp [extract_output_file, h1, h2]
  · intro n cs h1 h2; simp [extract_output_file, h1, h2]
  · intro ps ar ds h1 h2
    simp [processDirs, h1, make_tree_for_output_directory, h2]
  · intro ps ar ds h
    simp [processFiles, h]

/-- Witness for C5 at a concrete trie and paths. -/
theorem C5_witness :
    make_tree_for_output_directory [TrieEntry.symlink "out" "t"] ["out"]
      = Except.error
        ("Declared output directory path " ++ RelativePath.render ["out"]
          ++ " in output digest "
          ++ toString (compute_root_digest [TrieEntry.symlink "out" "t"])
          ++ " contained a symlink instead.") :=
  (C5_declared_output_wrong_kind [TrieEntry.symlink "out" "t"] ["out"] "f"
    []).2.1 "out" "t" rfl

/-- C9: `make_action_result` handles invalid declared paths
asymmetrically: an invalid declared output-directory path panics via
`RelativePath::new(...).unwrap()`, while an invalid declared output-file
path is returned as an error value via `extract_output_file`. -/
theorem C9_invalid_path_asymmetry :
    make_action_result (fun _ => some []) { output_directories := ["/abs"] }
      result0 = PanicOr.panicked "Received an absolute path: /abs"
    ∧ make_action_result (fun _ => some []) { output_files := ["/abs"] }
      result0 = PanicOr.value (Except.error "Received an absolute path: /abs") :=
  ⟨rfl, rfl⟩

/-- C2: a cache lookup returning a manifest is accepted as a hit exactly
when its exit code is zero or the caller's cache scope is `Always`;
otherwise it is downgraded to a miss, and a miss makes
`handle_cache_read_completed` use the downstream result. -/
theorem C2_hit_requires_success_or_always (behavior : RemoteCacheWarningsBehavior)
    (env : CacheReadEnv) (scope : ProcessCacheScope) (st : RState)
    (c : Counters) (r : FallibleResult)
    (h : check_action_cache env st.counters = (c, Except.ok (some r))) :
    cache_read_future behavior env (scope == ProcessCacheScope.Always) st
      = ({ st with counters := c },
         if r.exit_code = 0 ∨ scope = ProcessCacheScope.Always then some r
         else none)
    ∧ (∀ st' local_result, handle_cache_read_completed st' none local_result
        = (st', local_result.map (fun res => (res, false)))) := by
  constructor
  · unfold cache_read_future
    rw [h]
    by_cases hc : r.exit_code = 0 ∨ scope = ProcessCacheScope.Always
    · have hb : (r.exit_code == 0 || (scope == ProcessCacheScope.Always)) = true := by
        simp only [Bool.or_eq_true, beq_iff_eq]; exact hc
      simp [hb, hc]
    · have hb : (r.exit_code == 0 || (scope == ProcessCacheScope.Always)) = false := by
        simp only [Bool.or_eq_false_iff, beq_eq_false_iff_ne, ne_eq]
        exact ⟨fun h1 => hc (Or.inl h1), fun h2 => hc (Or.inr h2)⟩
      simp [hb, hc]
  · intro st' local_result; rfl

/-- A concrete reified cached failure (exit code 3). -/
def failed3 : FallibleResult := { result0 with exit_code := 3 }

/-- A concrete cache-read environment whose lookup succeeds with the
failed result. -/
def envHitFailed : CacheReadEnv :=
  { rpc_result := Except.ok
      { exit_code := 3, stdout_digest := some 1, stderr_digest := some 2,
        execution_metadata := some 0 },
    reified := Except.ok failed3,
    content_valid := Except.ok true }

/-- The counters after one successful cache request. -/
def countersAfterHit : Counters :=
  { remoteCacheRequests := 1, remoteCacheRequestsCached := 1,
    getActionResultCalls := 1 }

/-- Witness for C2: a cached failure under scope `Successful` is
downgraded to a miss. -/
theorem C2_witness :
    cache_read_future RemoteCacheWarningsBehavior.Backoff envHitFailed
      (ProcessCacheScope.Successful == ProcessCacheScope.Always) {}
      = ({ ({} : RState) with counters := countersAfterHit }, none) := by
  have h := (C2_hit_requires_success_or_always RemoteCacheWarningsBehavior.Backoff
    envHitFailed ProcessCacheScope.Successful {} countersAfterHit failed3 rfl).1
  rw [h]
  simp [failed3, result0]

theorem log_cache_error_tail_tasks (b : RemoteCacheWarningsBehavior)
    (st : RState) (e : String) (t : CacheErrorType) :
    (log_cache_error b st e t).tail_tasks = st.tail_tasks := by
  cases t <;> rfl

theorem cache_read_future_tail_tasks (b : RemoteCacheWarningsBehavior)
    (env : CacheReadEnv) (fc : Bool) (st : RState) :
    (cache_read_future b env fc st).1.tail_tasks = st.tail_tasks := by
  unfold cache_read_future
  rcases check_action_cache env st.counters with ⟨c, resp⟩
  match resp with
  | Except.error e =>
    simpa using log_cache_error_tail_tasks b { st with counters := c } e
      CacheErrorType.ReadError
  | Except.ok none => rfl
  | Except.ok (some r) =>
    cases hb : (r.exit_code == 0 || fc) <;> simp [hb]

theorem handle_cache_read_completed_tail_tasks (st : RState)
    (cr : Option FallibleResult)
    (lr : Except ProcessError FallibleResult) :
    (handle_cache_read_completed st cr lr).1.tail_tasks = st.tail_tasks := by
  cases cr <;> rfl

theorem speculate_tail_tasks (b : RemoteCacheWarningsBehavior)
    (env : CacheReadEnv) (fc : Bool)
    (lr : Except ProcessError FallibleResult) (w : RaceWinner) (st : RState) :
    (speculate_read_action_cache b env fc lr w st).1.tail_tasks
      = st.tail_tasks := by
  cases w
  case localAfterDelay => rfl
  all_goals
    unfold speculate_read_action_cache
  all_goals
    rcases h : cache_read_future b env fc st with ⟨st1, cr⟩
  all_goals
    have h1 : st1.tail_tasks = st.tail_tasks := by
      have := cache_read_future_tail_tasks b env fc st
      rw [h] at this
      exact this
  all_goals
    simpa [handle_cache_read_completed_tail_tasks] using h1

theorem run_speculation_step_tail_tasks (cfg : Config) (request : Process)
    (env : RunEnv) (st : RState) :
    (run_speculation_step cfg request env st).1.tail_tasks
      = st.tail_tasks := by
  unfold run_speculation_step
  dsimp only
  split
  · exact speculate_tail_tasks _ _ _ _ _ _
  · rfl

theorem speculate_ok_false (b : RemoteCacheWarningsBehavior)
    (env : CacheReadEnv) (fc : Bool)
    (lr : Except ProcessError FallibleResult) (w : RaceWinner) (st : RState)
    (result : FallibleResult)
    (h : (speculate_read_action_cache b env fc lr w st).2
      = Except.ok (result, false)) : lr = Except.ok result := by
  cases w
  case localAfterDelay =>
    unfold speculate_read_action_cache at h
    simp only [] at h
    rcases (except_map_eq_ok _ lr _).1 h with ⟨a, ha, hfa⟩
    rw [ha]
    cases hfa
    rfl
  all_goals
    unfold speculate_read_action_cache at h
  all_goals
    rcases hc : cache_read_future b env fc st with ⟨st1, cr⟩
  all_goals
    rw [hc] at h
  all_goals
    match cr with
    | some r => simp [handle_cache_read_completed] at h
    | none =>
      simp only [handle_cache_read_completed] at h
      rcases (except_map_eq_ok _ lr _).1 h with ⟨a, ha, hfa⟩
      rw [ha]
      cases hfa
      rfl

theorem speculate_error (b : RemoteCacheWarningsBehavior)
    (env : CacheReadEnv) (fc : Bool)
    (lr : Except ProcessError FallibleResult) (w : RaceWinner) (st : RState)
    (e : ProcessError)
    (h : (speculate_read_action_cache b env fc lr w st).2 = Except.error e) :
    lr = Except.error e := by
  cases w
  case localAfterDelay =>
    unfold speculate_read_action_cache at h
    simp only [] at h
    exact (except_map_eq_error _ lr _).1 h
  all_goals
    unfold speculate_read_action_cache at h
  all_goals
    rcases hc : cache_read_future b env fc st with ⟨st1, cr⟩
  all_goals
    rw [hc] at h
  all_goals
    match cr with
    | some r => simp [handle_cache_read_completed] at h
    | none =>
      simp only [handle_cache_read_completed] at h
      exact (except_map_eq_error _ lr _).1 h

theorem run_speculation_step_ok_false (cfg : Config) (request : Process)
    (env : RunEnv) (st : RState) (result : FallibleResult)
    (h : (run_speculation_step cfg request env st).2
      = Except.ok (result, false)) :
    env.local_result = Except.ok result := by
  unfold run_speculation_step at h
  dsimp only at h
  split at h
  · exact speculate_ok_false _ _ _ _ _ _ _ h
  · simp only [] at h
    rcases (except_map_eq_ok _ env.local_result _).1 h with ⟨a, ha, hfa⟩
    rw [ha]
    cases hfa
    rfl

theorem run_speculation_step_error (cfg : Config) (request : Process)
    (env : RunEnv) (st : RState) (e : ProcessError)
    (h : (run_speculation_step cfg request env st).2 = Except.error e) :
    env.local_result = Except.error e := by
  unfold run_speculation_step at h
  dsimp only at h
  split at h
  · exact speculate_error _ _ _ _ _ _ _ h
  · simp only [] at h
    exact (except_map_eq_error _ env.local_result _).1 h

theorem writeback_cond_iff (hit : Bool) (result : FallibleResult)
    (cfg : Config) (scope : ProcessCacheScope) :
    ((!hit && (result.exit_code == 0 || (scope == ProcessCacheScope.Always))
        && cfg.cache_write
        && ((scope == ProcessCacheScope.Always)
            || (scope == ProcessCacheScope.Successful))) = true)
      ↔ (hit = false
        ∧ (result.exit_code = 0 ∨ scope = ProcessCacheScope.Always)
        ∧ cfg.cache_write = true
        ∧ (scope = ProcessCacheScope.Always
           ∨ scope = ProcessCacheScope.Successful)) := by
  simp [Bool.and_eq_true, Bool.or_eq_true, Bool.not_eq_true', beq_iff_eq,
    and_assoc]

/-- C1: a write-back task is spawned by `run` exactly when the returned
result did not come from the cache, its exit code is zero or the scope is
`Always`, `cache_write` is enabled, and the scope is `Always` or
`Successful`; the spawned task is recorded on the detached-task list
keyed by the action digest, and `run` returns the result without
awaiting it.  In particular a request whose downstream result has a
non-zero exit code and whose scope is not `Always` spawns nothing. -/
theorem C1_writeback_spawned_iff (cfg : Config) (request : Process)
    (env : RunEnv) (st : RState) :
    (∀ result hit_cache,
      (run_speculation_step cfg request env st).2
          = Except.ok (result, hit_cache) →
      ((run cfg request env st).1.tail_tasks
          = st.tail_tasks ++ ["remote cache write " ++ toString env.action_digest]
        ↔ hit_cache = false
          ∧ (result.exit_code = 0
             ∨ request.cache_scope = ProcessCacheScope.Always)
          ∧ cfg.cache_write = true
          ∧ (request.cache_scope = ProcessCacheScope.Always
             ∨ request.cache_scope = ProcessCacheScope.Successful))
      ∧ ((run cfg request env st).1.tail_tasks
            = st.tail_tasks ++ ["remote cache write " ++ toString env.action_digest]
          ∨ (run cfg request env st).1.tail_tasks = st.tail_tasks)
      ∧ (run cfg request env st).2 = Except.ok result)
    ∧ (∀ r, env.local_result = Except.ok r → r.exit_code ≠ 0 →
        request.cache_scope ≠ ProcessCacheScope.Always →
        (run cfg request env st).1.tail_tasks = st.tail_tasks) := by
  rcases hs : run_speculation_step cfg request env st with ⟨st1, res⟩
  have hst1 : st1.tail_tasks = st.tail_tasks := by
    have h2 := run_speculation_step_tail_tasks cfg request env st
    rw [hs] at h2
    exact h2
  constructor
  · intro result hit_cache heq
    have hres : res = Except.ok (result, hit_cache) := heq
    subst hres
    by_cases hb : (!hit_cache
        && (result.exit_code == 0
            || (request.cache_scope == ProcessCacheScope.Always))
        && cfg.cache_write
        && ((request.cache_scope == ProcessCacheScope.Always)
            || (request.cache_scope == ProcessCacheScope.Successful))) = true
    · have hr : run cfg request env st
          = ({ st1 with tail_tasks := st1.tail_tasks
                ++ ["remote cache write " ++ toString env.action_digest] },
             Except.ok result) := by
        unfold run
        rw [hs]
        dsimp only
        rw [if_pos hb]
      rw [hr]
      dsimp only
      rw [hst1]
      refine ⟨?_, Or.inl rfl, rfl⟩
      exact iff_of_true rfl
        ((writeback_cond_iff hit_cache result cfg request.cache_scope).1 hb)
    · have hr : run cfg request env st = (st1, Except.ok result) := by
        unfold run
        rw [hs]
        dsimp only
        rw [if_neg hb]
      rw [hr]
      dsimp only
      rw [hst1]
      refine ⟨?_, Or.inr rfl, rfl⟩
      exact iff_of_false
        (fun habs => append_singleton_ne st.tail_tasks _ habs.symm)
        (fun hprops =>
          hb ((writeback_cond_iff hit_cache result cfg
            request.cache_scope).2 hprops))
  · intro r hr hexit hscope
    rcases res with e | ⟨result, hit_cache⟩
    · have hrr : run cfg request env st = (st1, Except.error e) := by
        unfold run
        rw [hs]
      rw [hrr]
      exact hst1
    · cases hit_cache
      case true =>
        have hrr : run cfg request env st = (st1, Except.ok result) := by
          unfold run
          rw [hs]
          dsimp only
          rw [if_neg (by simp)]
        rw [hrr]
        exact hst1
      case false =>
        have hlocal : env.local_result = Except.ok result :=
          run_speculation_step_ok_false cfg request env st result
            (by rw [hs])
        rw [hr] at hlocal
        injection hlocal with hres
        subst hres
        have h1 : (r.exit_code == 0) = false := by
          simp [beq_eq_false_iff_ne, hexit]
        have h2 : (request.cache_scope == ProcessCacheScope.Always) = false := by
          simp [beq_eq_false_iff_ne, hscope]
        have hrr : run cfg request env st = (st1, Except.ok r) := by
          unfold run
          rw [hs]
          dsimp only
          rw [if_neg (by simp [h1, h2])]
        rw [hrr]
        exact hst1

/-- Witness inputs: reads disabled, writes enabled, scope `Successful`. -/
def cfgW : Config :=
  { cache_read := false, cache_write := true,
    warnings_behavior := RemoteCacheWarningsBehavior.Backoff }

/-- Witness request with scope `Successful`. -/
def reqW : Process := { cache_scope := ProcessCacheScope.Successful }

/-- A cache-read environment whose RPC reports `NotFound` (a miss). -/
def envMiss : CacheReadEnv :=
  { rpc_result := Except.error (Status.not_found ""),
    reified := Except.error "unused", content_valid := Except.ok true }

/-- Witness run environment: downstream succeeds with `result0`. -/
def envW : RunEnv :=
  { action_digest := 7, command_digest := 8, cache := envMiss,
    local_result := Except.ok result0, winner := RaceWinner.cacheFirst }

/-- Witness for C1: with reads disabled, writes enabled, scope
`Successful` and a zero exit, the write-back task is spawned. -/
theorem C1_witness :
    (run cfgW reqW envW {}).1.tail_tasks
      = ({} : RState).tail_tasks
        ++ ["remote cache write " ++ toString envW.action_digest] :=
  ((C1_writeback_spawned_iff cfgW reqW envW {}).1 result0 false rfl).1.mpr
    ⟨rfl, Or.inl rfl, rfl, Or.inr rfl⟩

/-- C3 counterexample: the cache-read future completes first (winner of
the race) and yields `none`, yet
`RemoteCacheSpeculationRemoteCompletedFirst` stays 0 — the counter is not
incremented on the `None` outcome, contrary to the claim; the local
result is returned with `hit = false`. -/
theorem C3_counterexample :
    (cache_read_future RemoteCacheWarningsBehavior.Backoff envMiss false
        {}).2 = none
    ∧ (speculate_read_action_cache RemoteCacheWarningsBehavior.Backoff
        envMiss false (Except.ok result0) RaceWinner.cacheFirst
        {}).1.counters.remoteCacheSpeculationRemoteCompletedFirst = 0
    ∧ (speculate_read_action_cache RemoteCacheWarningsBehavior.Backoff
        envMiss false (Except.ok result0) RaceWinner.cacheFirst {}).2
        = Except.ok (result0, false) :=
  ⟨rfl, rfl, rfl⟩

/-- C3 (amended): when the cache-read future completes first, on `Some`
the counter `RemoteCacheSpeculationRemoteCompletedFirst` is incremented
and the cached result is returned with `hit = true`; on `None` no counter
is incremented and the local execution result is returned with
`hit = false`. -/
theorem C3_remote_first_amended (behavior : RemoteCacheWarningsBehavior)
    (env : CacheReadEnv) (failures_cached : Bool)
    (local_result : Except ProcessError FallibleResult) (winner : RaceWinner)
    (st st1 : RState)
    (hw : winner = RaceWinner.cacheFirst
      ∨ winner = RaceWinner.cacheAfterDelay) :
    (∀ r, cache_read_future behavior env failures_cached st = (st1, some r) →
      speculate_read_action_cache behavior env failures_cached local_result
          winner st
        = ({ st1 with counters := { st1.counters with
              remoteCacheSpeculationRemoteCompletedFirst :=
                st1.counters.remoteCacheSpeculationRemoteCompletedFirst + 1 } },
           Except.ok (r, true)))
    ∧ (cache_read_future behavior env failures_cached st = (st1, none) →
      speculate_read_action_cache behavior env failures_cached local_result
          winner st
        = (st1, local_result.map (fun res => (res, false)))) := by
  rcases hw with rfl | rfl <;>
    exact ⟨fun r h => by
        unfold speculate_read_action_cache
        rw [h]
        rfl,
      fun h => by
        unfold speculate_read_action_cache
        rw [h]
        rfl⟩

/-- The counters after one uncached (`NotFound`) cache request. -/
def countersMiss : Counters :=
  { remoteCacheRequests := 1, getActionResultCalls := 1,
    remoteCacheRequestsUncached := 1 }

/-- The runner state after one uncached (`NotFound`) cache request. -/
def stMiss : RState := { counters := countersMiss }

/-- Witness for the amended C3 at a concrete miss. -/
theorem C3_witness :
    speculate_read_action_cache RemoteCacheWarningsBehavior.Backoff envMiss
        false (Except.ok result0) RaceWinner.cacheFirst {}
      = (stMiss, Except.ok (result0, false)) :=
  (C3_remote_first_amended RemoteCacheWarningsBehavior.Backoff envMiss false
    (Except.ok result0) RaceWinner.cacheFirst {} stMiss (Or.inl rfl)).2 rfl

/-- C4: remote-cache read errors are never propagated by `run` (an error
from `run` can only be the downstream runner's error); an erroring
`check_action_cache` is logged through the adaptive error logger and
coerced to `none` before racing; a `NotFound` status and a failed content
validation both yield `Ok none` with `RemoteCacheRequestsUncached`
incremented. -/
theorem C4_read_errors_never_propagate :
    (∀ cfg request env st e, (run cfg request env st).2 = Except.error e →
      env.local_result = Except.error e)
    ∧ (∀ behavior env failures_cached st c err,
        check_action_cache env st.counters = (c, Except.error err) →
        cache_read_future behavior env failures_cached st
          = (log_cache_error behavior { st with counters := c } err
              CacheErrorType.ReadError, none))
    ∧ (∀ env c s, env.rpc_result = Except.error s → s.code = Code.NotFound →
        check_action_cache env c
          = ({ c with
                remoteCacheRequests := c.remoteCacheRequests + 1,
                getActionResultCalls := c.getActionResultCalls + 1,
                remoteCacheRequestsUncached :=
                  c.remoteCacheRequestsUncached + 1 },
             Except.ok none))
    ∧ (∀ env c ar resp, env.rpc_result = Except.ok ar →
        env.reified = Except.ok resp → env.content_valid = Except.ok false →
        check_action_cache env c
          = ({ c with
                remoteCacheRequests := c.remoteCacheRequests + 1,
                getActionResultCalls := c.getActionResultCalls + 1,
                remoteCacheRequestsUncached :=
                  c.remoteCacheRequestsUncached + 1 },
             Except.ok none)) := by
  refine ⟨?_, ?_, ?_, ?_⟩
  · intro cfg request env st e h
    rcases hs : run_speculation_step cfg request env st with ⟨st1, res⟩
    rcases res with e' | ⟨result, hit_cache⟩
    · have hrr : run cfg request env st = (st1, Except.error e') := by
        unfold run
        rw [hs]
      rw [hrr] at h
      cases h
      exact run_speculation_step_error cfg request env st e (by rw [hs])
    · have hrr : (run cfg request env st).2 = Except.ok result := by
        unfold run
        rw [hs]
        dsimp only
        split <;> rfl
      rw [hrr] at h
      cases h
  · intro behavior env failures_cached st c err h
    unfold cache_read_future
    rw [h]
  · intro env c s h1 h2
    rcases s with ⟨code, msg⟩
    cases h2
    unfold check_action_cache
    rw [h1]
  · intro env c ar resp h1 h2 h3
    unfold check_action_cache
    rw [h1, h2, h3]
    rfl

/-- Witness for C4: a `NotFound` lookup yields a miss with the uncached
counter bumped. -/
theorem C4_witness :
    check_action_cache envMiss {} = (countersMiss, Except.ok none) :=
  C4_read_errors_never_propagate.2.2.1 envMiss {} (Status.not_found "")
    rfl rfl

/-- C8: with `cache_read` disabled or a scope that is neither `Always`
nor `Successful`, no `GetActionResult` RPC is issued (all counters are
untouched), the speculation step is skipped, and `run` returns the
downstream runner's result unchanged (`hit = false`), errors included. -/
theorem C8_cache_read_disabled (cfg : Config) (request : Process)
    (env : RunEnv) (st : RState)
    (h : cfg.cache_read = false
      ∨ (request.cache_scope ≠ ProcessCacheScope.Always
         ∧ request.cache_scope ≠ ProcessCacheScope.Successful)) :
    run_speculation_step cfg request env st
      = (st, env.local_result.map (fun res => (res, false)))
    ∧ (run cfg request env st).2 = env.local_result
    ∧ (run cfg request env st).1.counters = st.counters := by
  have hcond : (cfg.cache_read
      && ((request.cache_scope == ProcessCacheScope.Always)
          || (request.cache_scope == ProcessCacheScope.Successful)))
      = false := by
    rcases h with h | ⟨h1, h2⟩
    · simp [h]
    · simp [beq_eq_false_iff_ne, h1, h2]
  have hstep : run_speculation_step cfg request env st
      = (st, env.local_result.map (fun res => (res, false))) := by
    unfold run_speculation_step
    dsimp only
    rw [hcond]
    simp
  refine ⟨hstep, ?_, ?_⟩ <;>
    rcases hl : env.local_result with e | r
  · have hrr : run cfg request env st = (st, Except.error e) := by
      unfold run
      rw [hstep, hl]
      rfl
    rw [hrr]
  · have hrr : (run cfg request env st).2 = Except.ok r := by
      unfold run
      rw [hstep, hl]
      dsimp only [Except.map]
      split <;> rfl
    rw [hrr]
  · have hrr : run cfg request env st = (st, Except.error e) := by
      unfold run
      rw [hstep, hl]
      rfl
    rw [hrr]
  · unfold run
    rw [hstep, hl]
    dsimp only [Except.map]
    split <;> rfl

/-- Witness for C8: reads disabled, downstream result returned
unchanged. -/
theorem C8_witness : (run cfgW reqW envW {}).2 = Except.ok result0 :=
  (C8_cache_read_disabled cfgW reqW envW {} (Or.inl rfl)).2.1

/-! ## Adaptive error logging (C7) -/

theorem count_ones_aux_congr : ∀ (n f1 f2 : Nat), n ≤ f1 → n ≤ f2 →
    count_ones_aux f1 n = count_ones_aux f2 n := by
  intro n
  induction n using Nat.strong_induction_on with
  | _ n ih =>
    intro f1 f2 h1 h2
    cases n with
    | zero => cases f1 <;> cases f2 <;> rfl
    | succ m =>
      cases f1 with
      | zero => omega
      | succ g1 =>
        cases f2 with
        | zero => omega
        | succ g2 =>
          show (m + 1) % 2 + count_ones_aux g1 ((m + 1) / 2)
            = (m + 1) % 2 + count_ones_aux g2 ((m + 1) / 2)
          have h3 := ih ((m + 1) / 2) (by omega) g1 g2 (by omega) (by omega)
          omega

theorem count_ones_succ_form (n : Nat) (h : 0 < n) :
    count_ones n = n % 2 + count_ones (n / 2) := by
  match n, h with
  | m + 1, _ =>
    show (m + 1) % 2 + count_ones_aux m ((m + 1) / 2)
      = (m + 1) % 2 + count_ones_aux ((m + 1) / 2) ((m + 1) / 2)
    have h3 := count_ones_aux_congr ((m + 1) / 2) m ((m + 1) / 2)
      (by omega) (by omega)
    omega

theorem count_ones_pos : ∀ (n : Nat), 0 < n → 0 < count_ones n := by
  intro n
  induction n using Nat.strong_induction_on with
  | _ n ih =>
    intro h
    rw [count_ones_succ_form n h]
    rcases Nat.eq_zero_or_pos (n / 2) with h2 | h2
    · have hn : n = 1 := by omega
      subst hn
      decide
    · have h3 := ih (n / 2) (by omega) h2
      omega

theorem count_ones_eq_one_iff (n : Nat) :
    count_ones n = 1 ↔ ∃ m, n = 2 ^ m := by
  induction n using Nat.strong_induction_on with
  | _ n ih =>
    rcases Nat.eq_zero_or_pos n with rfl | hpos
    · constructor
      · intro h
        exact absurd h (by decide)
      · rintro ⟨m, hm⟩
        exact absurd hm.symm (Nat.pos_iff_ne_zero.mp (Nat.pos_pow_of_pos m
          (by decide)))
    · rw [count_ones_succ_form n hpos]
      rcases Nat.even_or_odd n with he | ho
      · have hmod : n % 2 = 0 := Nat.even_iff.mp he
        have hdiv_lt : n / 2 < n := Nat.div_lt_self hpos (by decide)
        have hdiv_pos : 0 < n / 2 := by omega
        rw [hmod, Nat.zero_add, ih (n / 2) hdiv_lt]
        constructor
        · rintro ⟨m, hm⟩
          refine ⟨m + 1, ?_⟩
          have h2 : n = 2 * (n / 2) := by omega
          rw [h2, hm, Nat.pow_succ]
          ring
        · rintro ⟨m, hm⟩
          cases m with
          | zero =>
            exfalso
            simp at hm
            omega
          | succ m' =>
            refine ⟨m', ?_⟩
            have h2 : n = 2 * 2 ^ m' := by
              rw [hm, Nat.pow_succ]
              ring
            omega
      · have hmod : n % 2 = 1 := Nat.odd_iff.mp ho
        rw [hmod]
        constructor
        · intro h
          have hz : count_ones (n / 2) = 0 := by omega
          have hdz : n / 2 = 0 := by
            by_contra hne
            have h4 := count_ones_pos (n / 2) (Nat.pos_of_ne_zero hne)
            omega
          have hn1 : n = 1 := by omega
          exact ⟨0, by simpa using hn1⟩
        · rintro ⟨m, hm⟩
          cases m with
          | zero =>
            have hn1 : n = 1 := by simpa using hm
            subst hn1
            decide
          | succ m' =>
            exfalso
            have h2 : n = 2 * 2 ^ m' := by
              rw [hm, Nat.pow_succ]
              ring
            omega

/-- `k` successive calls of `log_cache_error` with the same error text
and direction. -/
def logIter (behavior : RemoteCacheWarningsBehavior) (err : String)
    (err_type : CacheErrorType) (st : RState) : Nat → RState
  | 0 => st
  | k + 1 =>
    log_cache_error behavior (logIter behavior err err_type st k) err err_type

/-- Whether an occurrence count is elevated to Warn by a behaviour. -/
def elevates (behavior : RemoteCacheWarningsBehavior) (i : Nat) : Bool :=
  match behavior with
  | RemoteCacheWarningsBehavior.Ignore => false
  | RemoteCacheWarningsBehavior.FirstOnly => i == 1
  | RemoteCacheWarningsBehavior.Backoff => is_power_of_two i

/-- The message emitted for the `i`-th occurrence of an error in a
direction: it contains the direction and the cumulative count. -/
def expectedMsg (err_type : CacheErrorType) (i : Nat) (err : String) :
    String :=
  "Failed to "
    ++ (match err_type with
        | CacheErrorType.ReadError => "read from"
        | CacheErrorType.WriteError => "write to")
    ++ " remote cache (" ++ toString i ++ " occurrences so far): " ++ err

/-- The log event emitted for the `i`-th occurrence. -/
def expectedEvent (behavior : RemoteCacheWarningsBehavior)
    (err_type : CacheErrorType) (i : Nat) (err : String) : LogEvent :=
  { level := if elevates behavior i then LogLevel.Warn else LogLevel.Debug,
    msg := expectedMsg err_type i err }

theorem log_cache_error_count (b : RemoteCacheWarningsBehavior) (st : RState)
    (err : String) (t : CacheErrorType) :
    errCount (log_cache_error b st err t) t err = errCount st t err + 1 := by
  cases t <;> simp [log_cache_error, errCount]

theorem log_cache_error_count_other (b : RemoteCacheWarningsBehavior)
    (st : RState) (err : String) (t : CacheErrorType) (e' : String)
    (h : e' ≠ err) :
    errCount (log_cache_error b st err t) t e' = errCount st t e' := by
  cases t <;> simp [log_cache_error, errCount, h]

theorem log_cache_error_log (b : RemoteCacheWarningsBehavior) (st : RState)
    (err : String) (t : CacheErrorType) :
    (log_cache_error b st err t).log
      = st.log ++ [expectedEvent b t (errCount st t err + 1) err] := by
  cases t <;> cases b <;> rfl

theorem logIter_count (b : RemoteCacheWarningsBehavior) (err : String)
    (t : CacheErrorType) (st0 : RState) (k : Nat)
    (hfresh : errCount st0 t err = 0) :
    errCount (logIter b err t st0 k) t err = k := by
  induction k with
  | zero => exact hfresh
  | succ k ih => simp [logIter, log_cache_error_count, ih]

/-- C7: starting from a state in which an error text was never seen, `k`
identical failures leave the per-direction counter for that text at `k`
(so the counter over the sequence is exactly the occurrence index, hence
monotonically non-decreasing), leave every other text's counter
untouched, and append exactly one log event per occurrence whose message
contains the cumulative count and the direction, at Warn exactly on
occurrence 1 under FirstOnly, exactly on the powers of two under Backoff,
and never under Ignore, and at Debug otherwise. -/
theorem C7_adaptive_error_logging (behavior : RemoteCacheWarningsBehavior)
    (err : String) (err_type : CacheErrorType) (k : Nat) (st0 : RState)
    (hfresh : errCount st0 err_type err = 0) :
    (∀ j, j ≤ k →
      errCount (logIter behavior err err_type st0 j) err_type err = j)
    ∧ (logIter behavior err err_type st0 k).log
        = st0.log ++ (List.range k).map
            (fun j => expectedEvent behavior err_type (j + 1) err)
    ∧ (∀ e', e' ≠ err →
        errCount (logIter behavior err err_type st0 k) err_type e'
          = errCount st0 err_type e')
    ∧ (∀ i, elevates RemoteCacheWarningsBehavior.FirstOnly i = true ↔ i = 1)
    ∧ (∀ i, elevates RemoteCacheWarningsBehavior.Backoff i = true
        ↔ ∃ m, i = 2 ^ m)
    ∧ (∀ i, elevates RemoteCacheWarningsBehavior.Ignore i = false) := by
  refine ⟨fun j _ => logIter_count behavior err err_type st0 j hfresh,
    ?_, ?_, ?_, ?_, fun i => rfl⟩
  · induction k with
    | zero => simp [logIter]
    | succ k ih =>
      have hc := logIter_count behavior err err_type st0 k hfresh
      rw [logIter, log_cache_error_log, ih, hc, List.range_succ]
      simp
  · intro e' h
    induction k with
    | zero => rfl
    | succ k ih =>
      rw [logIter, log_cache_error_count_other _ _ _ _ _ h, ih]
  · intro i
    simp [elevates]
  · intro i
    simp only [elevates, is_power_of_two, beq_iff_eq]
    exact count_ones_eq_one_iff i

/-- Witness for C7: three `Backoff` read failures from a fresh state
leave the counter at 3 and the log at Warn, Warn, Debug. -/
theorem C7_witness :
    errCount (logIter RemoteCacheWarningsBehavior.Backoff "boom"
        CacheErrorType.ReadError {} 3) CacheErrorType.ReadError "boom" = 3 :=
  (C7_adaptive_error_logging RemoteCacheWarningsBehavior.Backoff "boom"
    CacheErrorType.ReadError 3 {} rfl).1 3 (Nat.le_refl 3)

/-! ## Manifest construction (C6, C10) -/

theorem mem_insertD (ds : List Digest) (x d : Digest) :
    d ∈ insertD ds x ↔ d ∈ ds ∨ d = x := by
  unfold insertD
  split
  case isTrue h =>
    constructor
    · exact Or.inl
    · rintro (hd | rfl)
      · exact hd
      · exact h
  case isFalse h => simp [List.mem_append]

theorem nodup_insertD (ds : List Digest) (x : Digest) (h : ds.Nodup) :
    (insertD ds x).Nodup := by
  unfold insertD
  split
  · exact h
  case isFalse hx =>
    rw [← List.concat_eq_append]
    exact List.Nodup.concat hx h

theorem mem_insertAll (new : List Digest) : ∀ (ds : List Digest) (d : Digest),
    d ∈ insertAll ds new ↔ d ∈ ds ∨ d ∈ new := by
  induction new with
  | nil => simp [insertAll]
  | cons x xs ih =>
    intro ds d
    show d ∈ insertAll (insertD ds x) xs ↔ _
    rw [ih, mem_insertD]
    simp [List.mem_cons]
    tauto

theorem nodup_insertAll (new : List Digest) :
    ∀ ds : List Digest, ds.Nodup → (insertAll ds new).Nodup := by
  induction new with
  | nil => intro ds h; exact h
  | cons x xs ih => intro ds h; exact ih _ (nodup_insertD ds x h)

theorem processDirs_ok (trie : DigestTrie) :
    ∀ (ps : List String) (ar : ActionResult) (ds : List Digest)
      (ar' : ActionResult) (ds' : List Digest),
    processDirs trie ps ar ds = PanicOr.value (Except.ok (ar', ds')) →
    ar'.output_directories = ar.output_directories ++ dirOutputsOf trie ps
    ∧ ar'.output_files = ar.output_files
    ∧ ar'.exit_code = ar.exit_code
    ∧ ar'.stdout_digest = ar.stdout_digest
    ∧ ar'.stderr_digest = ar.stderr_digest
    ∧ ar'.execution_metadata = ar.execution_metadata
    ∧ (∀ d, d ∈ ds' ↔ d ∈ ds ∨ d ∈ dirClosureOf trie ps)
    ∧ (ds.Nodup → ds'.Nodup) := by
  intro ps
  induction ps with
  | nil =>
    intro ar ds ar' ds' h
    have h2 : ar = ar' ∧ ds = ds' := by
      simpa [processDirs] using h
    rcases h2 with ⟨rfl, rfl⟩
    simp [dirOutputsOf, dirClosureOf]
  | cons p ps ih =>
    intro ar ds ar' ds' h
    rcases h1 : RelativePath.new p with e | rp
    · simp only [processDirs, h1] at h
      exact PanicOr.noConfusion h
    · rcases h2 : make_tree_for_output_directory trie rp with e | o
      · simp only [processDirs, h1, h2] at h
        exact Except.noConfusion (PanicOr.value.inj h)
      · rcases o with _ | ⟨tree, fds⟩
        · simp only [processDirs, h1, h2] at h
          have h3 := ih ar ds ar' ds' h
          simpa [dirOutputsOf, dirClosureOf, List.filterMap_cons, h1, h2]
            using h3
        · simp only [processDirs, h1, h2] at h
          have h3 := ih _ _ ar' ds' h
          rcases h3 with ⟨hod, hof, hec, hsd, hse, hem, hmem, hnd⟩
          refine ⟨?_, hof, hec, hsd, hse, hem, ?_, ?_⟩
          · rw [hod]
            simp [dirOutputsOf, List.filterMap_cons, h1, h2,
              List.append_assoc]
          · intro d
            rw [hmem d, mem_insertAll, mem_insertD]
            simp only [dirClosureOf, List.map_cons, List.flatten_cons, h1, h2,
              List.mem_append, List.mem_cons]
            tauto
          · intro hnodup
            exact hnd (nodup_insertAll fds _ (nodup_insertD ds _ hnodup))

theorem processFiles_ok (trie : DigestTrie) :
    ∀ (ps : List String) (ar : ActionResult) (ds : List Digest)
      (ar' : ActionResult) (ds' : List Digest),
    processFiles trie ps ar ds = Except.ok (ar', ds') →
    ar'.output_files = ar.output_files ++ fileOutputsOf trie ps
    ∧ ar'.output_directories = ar.output_directories
    ∧ ar'.exit_code = ar.exit_code
    ∧ ar'.stdout_digest = ar.stdout_digest
    ∧ ar'.stderr_digest = ar.stderr_digest
    ∧ ar'.execution_metadata = ar.execution_metadata
    ∧ (∀ d, d ∈ ds' ↔ d ∈ ds ∨ d ∈ fileClosureOf trie ps)
    ∧ (ds.Nodup → ds'.Nodup) := by
  intro ps
  induction ps with
  | nil =>
    intro ar ds ar' ds' h
    have h2 : ar = ar' ∧ ds = ds' := by
      simpa [processFiles] using h
    rcases h2 with ⟨rfl, rfl⟩
    simp [fileOutputsOf, fileClosureOf]
  | cons p ps ih =>
    intro ar ds ar' ds' h
    rcases h1 : extract_output_file trie p with e | o
    · simp only [processFiles, h1] at h
      exact Except.noConfusion h
    · rcases o with _ | of
      · simp only [processFiles, h1] at h
        have h3 := ih ar ds ar' ds' h
        simpa [fileOutputsOf, fileClosureOf, List.filterMap_cons, h1]
          using h3
      · rcases hdig : of.digest with _ | d
        · simp only [processFiles, h1, hdig, require_digest] at h
          exact Except.noConfusion h
        · simp only [processFiles, h1, hdig, require_digest] at h
          have h3 := ih _ _ ar' ds' h
          rcases h3 with ⟨hof, hod, hec, hsd, hse, hem, hmem, hnd⟩
          refine ⟨?_, hod, hec, hsd, hse, hem, ?_, ?_⟩
          · rw [hof]
            simp [fileOutputsOf, List.filterMap_cons, h1, List.append_assoc]
          · intro d'
            rw [hmem d', mem_insertD]
            simp only [fileClosureOf, List.map_cons, List.flatten_cons, h1,
              hdig, List.mem_append, List.mem_cons]
            tauto
          · intro hnodup
            exact hnd (nodup_insertD ds d hnodup)

/-- C6: a successful `make_action_result` returns a duplicate-free digest
closure containing exactly the stdout digest, the stderr digest, every
stored flattened-tree digest with the File leaf digests of each declared
output directory, and every declared output file's digest; the manifest's
`output_directories` and `output_files` lists follow the command's
declared order of paths. -/
theorem C6_closure_and_order (load : Digest → Option DigestTrie)
    (command : Command) (result : FallibleResult)
    (output_trie : DigestTrie) (ar : ActionResult) (ds : List Digest)
    (hload : load result.output_directory = some output_trie)
    (h : make_action_result load command result
      = PanicOr.value (Except.ok (ar, ds))) :
    ds.Nodup
    ∧ (∀ d, d ∈ ds ↔ d = result.stdout_digest ∨ d = result.stderr_digest
        ∨ d ∈ dirClosureOf output_trie command.output_directories
        ∨ d ∈ fileClosureOf output_trie command.output_files)
    ∧ ar.output_directories
        = dirOutputsOf output_trie command.output_directories
    ∧ ar.output_files = fileOutputsOf output_trie command.output_files := by
  unfold make_action_result at h
  rw [hload] at h
  dsimp only at h
  rcases hd : processDirs output_trie command.output_directories
      { exit_code := result.exit_code,
        stdout_digest := some result.stdout_digest,
        stderr_digest := some result.stderr_digest,
        execution_metadata := some result.metadata }
      (insertD (insertD [] result.stdout_digest) result.stderr_digest)
    with e | res
  · rw [hd] at h
    exact PanicOr.noConfusion h
  · rw [hd] at h
    rcases res with e | ⟨ar1, ds1⟩
    · exact Except.noConfusion (PanicOr.value.inj h)
    · have hf : processFiles output_trie command.output_files ar1 ds1
          = Except.ok (ar, ds) := PanicOr.value.inj h
      have hdirs := processDirs_ok output_trie command.output_directories
        _ _ ar1 ds1 hd
      have hfiles := processFiles_ok output_trie command.output_files
        ar1 ds1 ar ds hf
      rcases hdirs with ⟨hod1, hof1, _, _, _, _, hmem1, hnd1⟩
      rcases hfiles with ⟨hof2, hod2, _, _, _, _, hmem2, hnd2⟩
      have hseed_nodup :
          (insertD (insertD [] result.stdout_digest)
            result.stderr_digest).Nodup :=
        nodup_insertD _ _ (nodup_insertD [] _ List.nodup_nil)
      refine ⟨hnd2 (hnd1 hseed_nodup), ?_, ?_, ?_⟩
      · intro d
        rw [hmem2 d, hmem1 d, mem_insertD, mem_insertD]
        simp only [List.not_mem_nil, false_or]
        tauto
      · rw [hod2, hod1]
        simp
      · rw [hof2, hof1]
        simp

/-- A concrete flattened tree with one file. -/
def treeW : Tree := [TrieEntry.file "a.txt" 11 false]

/-- A concrete output trie with one declared directory. -/
def trieW : DigestTrie := [TrieEntry.dir "out" treeW]

/-- The store for the concrete C6 instance. -/
def loadW : Digest → Option DigestTrie :=
  fun dg => if dg = 9 then some trieW else none

/-- The manifest entry for the concrete C6 instance. -/
def odW : OutputDirectory :=
  { path := "out", tree_digest := some (store_proto_locally treeW),
    is_topologically_sorted := false }

/-- The manifest for the concrete C6 instance. -/
def arW : ActionResult :=
  { exit_code := 0, stdout_digest := some 1, stderr_digest := some 2,
    execution_metadata := some 0, output_directories := [odW] }

/-- The digest closure for the concrete C6 instance. -/
def dsW : List Digest :=
  insertAll (insertD (insertD (insertD [] 1) 2)
    (store_proto_locally treeW)) [11]

set_option maxRecDepth 8000 in
/-- Witness for C6 at a concrete trie, command and result. -/
theorem C6_witness : dsW.Nodup :=
  (C6_closure_and_order loadW { output_directories := ["out"] } result0
    trieW arW dsW rfl rfl).1

theorem dirOutputsOf_fields (trie : DigestTrie) (ps : List String)
    (od : OutputDirectory) (hod : od ∈ dirOutputsOf trie ps) :
    od.is_topologically_sorted = false ∧ od.tree_digest ≠ none := by
  unfold dirOutputsOf at hod
  rcases List.mem_filterMap.mp hod with ⟨p, _, hf⟩
  rcases h1 : RelativePath.new p with e | rp
  · simp only [h1] at hf
    exact Option.noConfusion hf
  · simp only [h1] at hf
    rcases h2 : make_tree_for_output_directory trie rp with e | o
    · simp only [h2] at hf
      exact Option.noConfusion hf
    · rcases o with _ | ⟨tree, fds⟩
      · simp only [h2] at hf
        exact Option.noConfusion hf
      · simp only [h2, Option.some.injEq] at hf
        rw [← hf]
        exact ⟨rfl, by simp⟩

/-- C10: every manifest from a successful `make_action_result` has its
stdout digest, stderr digest and execution metadata populated and carries
the result's exit code; each of its `OutputDirectory` entries has
`is_topologically_sorted = false` and a populated tree digest; the
subtree walk collects only File leaf digests and silently skips Symlink
entries. -/
theorem C10_populated_fields (load : Digest → Option DigestTrie)
    (command : Command) (result : FallibleResult) (ar : ActionResult)
    (ds : List Digest)
    (h : make_action_result load command result
      = PanicOr.value (Except.ok (ar, ds))) :
    ar.exit_code = result.exit_code
    ∧ ar.stdout_digest = some result.stdout_digest
    ∧ ar.stderr_digest = some result.stderr_digest
    ∧ ar.execution_metadata = some result.metadata
    ∧ (∀ od ∈ ar.output_directories,
        od.is_topologically_sorted = false ∧ od.tree_digest ≠ none)
    ∧ (∀ n t rest, listFileDigests (TrieEntry.symlink n t :: rest)
        = listFileDigests rest)
    ∧ (∀ n d e rest, listFileDigests (TrieEntry.file n d e :: rest)
        = d :: listFileDigests rest)
    ∧ (∀ n cs rest, listFileDigests (TrieEntry.dir n cs :: rest)
        = listFileDigests cs ++ listFileDigests rest) := by
  unfold make_action_result at h
  rcases hload : load result.output_directory with _ | output_trie
  · rw [hload] at h
    exact Except.noConfusion (PanicOr.value.inj h)
  · rw [hload] at h
    dsimp only at h
    rcases hd : processDirs output_trie command.output_directories
        { exit_code := result.exit_code,
          stdout_digest := some result.stdout_digest,
          stderr_digest := some result.stderr_digest,
          execution_metadata := some result.metadata }
        (insertD (insertD [] result.stdout_digest) result.stderr_digest)
      with e | res
    · rw [hd] at h
      exact PanicOr.noConfusion h
    · rw [hd] at h
      rcases res with e | ⟨ar1, ds1⟩
      · exact Except.noConfusion (PanicOr.value.inj h)
      · have hf : processFiles output_trie command.output_files ar1 ds1
            = Except.ok (ar, ds) := PanicOr.value.inj h
        have hdirs := processDirs_ok output_trie command.output_directories
          _ _ ar1 ds1 hd
        have hfiles := processFiles_ok output_trie command.output_files
          ar1 ds1 ar ds hf
        rcases hdirs with ⟨hod1, _, hec1, hsd1, hse1, hem1, _, _⟩
        rcases hfiles with ⟨_, hod2, hec2, hsd2, hse2, hem2, _, _⟩
        refine ⟨by rw [hec2, hec1], by rw [hsd2, hsd1], by rw [hse2, hse1],
          by rw [hem2, hem1], ?_, fun n t rest => rfl,
          fun n d e rest => rfl, fun n cs rest => rfl⟩
        intro od hod
        rw [hod2, hod1] at hod
        simp only [List.nil_append] at hod
        exact dirOutputsOf_fields output_trie command.output_directories
          od hod

set_option maxRecDepth 8000 in
/-- Witness for C10 at the concrete C6 instance. -/
theorem C10_witness : arW.stdout_digest = some result0.stdout_digest :=
  (C10_populated_fields loadW { output_directories := ["out"] } result0
    arW dsW rfl).2.1

end RemoteCache
